import Mathlib

/-!
Shallow embedding of the news aggregation pipeline implemented by
class EnhancedNewsCollector in src/news-collector-enhanced.py.

Modelling conventions:
* Python str values are Lean String values; slicing s[:n] is take on the
  underlying character list (both count Unicode code points).
* datetime values are integers (seconds); datetime.now() and its
  isoformat string, the stdlib strptime / md5 routines, and the results
  of the network calls (feedparser.parse, requests.get + BeautifulSoup
  selection) are inputs of the run, collected in the Env structure.
  Every line of control flow of the collector itself is translated.
* The Python set seen_urls is a list used only through membership.
* Python sorted(key, reverse=True) is a stable descending sort; it is
  modelled by insertion sort with a relation that holds on ties, which
  yields the identical (unique) stable result.
-/

/-- Whitespace as matched by Python's re \s and str.strip on str values. -/
def isPySpace (c : Char) : Bool :=
  c = ' ' || (0x09 ≤ c.toNat && c.toNat ≤ 0x0D) || (0x1C ≤ c.toNat && c.toNat ≤ 0x1F) ||
  c.toNat = 0x85 || c.toNat = 0xA0 || c.toNat = 0x1680 ||
  (0x2000 ≤ c.toNat && c.toNat ≤ 0x200A) || c.toNat = 0x2028 || c.toNat = 0x2029 ||
  c.toNat = 0x202F || c.toNat = 0x205F || c.toNat = 0x3000

/-- One-pass automaton for re.sub applied to the tag pattern: an opening
angle bracket, one or more characters that are not a closing bracket, then
a closing bracket; matched spans are deleted.  The first argument buffers
(reversed) the characters read since an unmatched opening bracket. -/
def stripTagsAux : Option (List Char) → List Char → List Char
  | none, [] => []
  | some buf, [] => '<' :: buf.reverse
  | none, c :: cs =>
    if c = '<' then stripTagsAux (some []) cs else c :: stripTagsAux none cs
  | some buf, c :: cs =>
    if c = '>' then
      if buf.isEmpty then '<' :: '>' :: stripTagsAux none cs
      else stripTagsAux none cs
    else stripTagsAux (some (c :: buf)) cs

/-- Removes HTML tags, first step of EnhancedNewsCollector._clean_text. -/
def stripTags (l : List Char) : List Char := stripTagsAux none l

/-- Collapses every run of whitespace to a single space, as re.sub with
pattern \s+ does; the Bool flag records whether the previous character
belonged to a whitespace run. -/
def collapseAux : Bool → List Char → List Char
  | _, [] => []
  | prev, c :: cs =>
    if isPySpace c then
      (if prev then collapseAux true cs else ' ' :: collapseAux true cs)
    else c :: collapseAux false cs

/-- Second step of _clean_text. -/
def collapseSpaces (l : List Char) : List Char := collapseAux false l

/-- Python str.strip(): removes leading and trailing whitespace. -/
def pyStrip (l : List Char) : List Char :=
  ((l.dropWhile isPySpace).reverse.dropWhile isPySpace).reverse

/-- Python str.replace for a single-character pattern. -/
def replaceChar (old new : Char) (l : List Char) : List Char :=
  l.map (fun c => if c = old then new else c)

/-- EnhancedNewsCollector._clean_text: strip tags, collapse whitespace,
strip ends, then replace ideographic space and no-break space. -/
def clean_text (s : String) : String :=
  String.mk (replaceChar '\xa0' ' '
    (replaceChar '　' ' ' (pyStrip (collapseSpaces (stripTags s.data)))))

/-- Python substring test pat in l (true for the empty pattern). -/
def listContainsSub (l pat : List Char) : Bool :=
  l.tails.any (fun t => pat.isPrefixOf t)

/-- Python substring test pat in s on strings. -/
def strContains (s pat : String) : Bool := listContainsSub s.data pat.data

/-- Python str.startswith. -/
def pyStartsWith (s pre : String) : Bool := pre.data.isPrefixOf s.data

/-- Python slice s[:n] for a nonnegative n. -/
def strTake (s : String) (n : Nat) : String := String.mk (s.data.take n)

/-- Python ASCII lowercasing step of str.lower (the keyword lists and the
relevance test only rely on ASCII letters). -/
def toLowerStr (s : String) : String := String.mk (s.data.map Char.toLower)

/-- Python str.split on the slash character. -/
def splitSlash : List Char → List (List Char)
  | [] => [[]]
  | c :: cs =>
    match splitSlash cs with
    | [] => [[]]
    | g :: gs => if c = '/' then [] :: g :: gs else (c :: g) :: gs

/-- Python lexicographic comparison of strings (by code point), strict. -/
def listLtCh : List Char → List Char → Bool
  | [], [] => false
  | [], _ :: _ => true
  | _ :: _, [] => false
  | a :: as, b :: bs => if a < b then true else if b < a then false else listLtCh as bs

/-- Strict string comparison as Python's less-than on str. -/
def strLtB (s t : String) : Bool := listLtCh s.data t.data

/-- Non-strict string comparison as Python's less-or-equal on str. -/
def strLeB (s t : String) : Bool := !(strLtB t s)

/-- Candidate record as built by the collector: the dict with keys title,
url, summary, source, published (an isoformat string) and score. -/
structure Article where
  title : String
  url : String
  summary : String
  source : String
  published : String
  score : Nat
deriving DecidableEq, Repr

/-- Working state of one collection run: the lists self.collected_news and
self.seen_urls (the latter a set used only through membership). -/
structure CState where
  news : List Article
  seen : List String
deriving DecidableEq, Repr

/-- Entry of the rss_feeds registry: name, url, optional keyword filter. -/
structure FeedInfo where
  name : String
  url : String
  filter : Option (List String)
deriving DecidableEq, Repr

/-- CSS locators of a web_sources registry entry. -/
structure Selector where
  container : String
  title : String
  link : String
  summary : String
deriving DecidableEq, Repr

/-- Entry of the web_sources registry. -/
structure WebSource where
  name : String
  url : String
  selector : Selector
deriving DecidableEq, Repr

/-- The rss_feeds list set in __init__. -/
def rss_feeds : List FeedInfo :=
  [⟨"Google News - AI",
    "https://news.google.com/rss/search?q=AI+人工知能&hl=ja&gl=JP&ceid=JP:ja", none⟩,
   ⟨"ITmedia AI+", "https://rss.itmedia.co.jp/rss/2.0/aiplus.xml", none⟩,
   ⟨"GIGAZINE", "https://gigazine.net/news/rss_2.0/",
    some ["AI", "人工知能", "ChatGPT", "機械学習"]⟩]

/-- The web_sources list set in __init__. -/
def web_sources : List WebSource :=
  [⟨"AI News Japan", "https://ledge.ai/categories/news/", ⟨"article", "h2", "a", "p"⟩⟩,
   ⟨"ASCII AI", "https://ascii.jp/ai/", ⟨"div.articleList", "h3", "a", "p"⟩⟩]

/-- Feed entry as read through entry.get with empty-string defaults. -/
structure RSSEntry where
  title : String
  link : String
  summary : String
  published : String
deriving DecidableEq, Repr

/-- Scraped container: the results of the three select_one lookups; none
models a missing element, the link field holds the href value (possibly
empty when the attribute is absent). -/
structure Container where
  title : Option String
  link : Option String
  summary : Option String
deriving DecidableEq, Repr

/-- External inputs of one run: the run instant and its isoformat, the
stdlib datetime.isoformat / strptime / hashlib md5-hexdigest routines, and
the outcomes of the network calls keyed by source url.  feedparse models
feedparser.parse (an error value models a raised exception), fetchPage
models requests.get followed by BeautifulSoup container selection, giving
the status code and the selected containers. -/
structure Env where
  now : Int
  nowIso : String
  iso : Int → String
  strptime : String → String → Option Int
  md5hex : String → String
  feedparse : String → Except String (List RSSEntry)
  fetchPage : String → Except String (Int × List Container)

/-- Ordered list of accepted date formats of _parse_date. -/
def date_formats : List String :=
  ["%a, %d %b %Y %H:%M:%S %Z", "%Y-%m-%dT%H:%M:%S%z", "%Y-%m-%d %H:%M:%S",
   "%Y/%m/%d %H:%M:%S"]

/-- Python str.replace of the three-letter GMT marker by +0000. -/
def replaceGMT : List Char → List Char
  | [] => []
  | 'G' :: 'M' :: 'T' :: rest => '+' :: '0' :: '0' :: '0' :: '0' :: replaceGMT rest
  | c :: rest => c :: replaceGMT rest

/-- Tries the accepted formats in order; a strptime failure (none) falls
through to the next format, as the try/except in _parse_date does. -/
def firstParse (stp : String → String → Option Int) (s : String) :
    List String → Option Int
  | [] => none
  | f :: fs => match stp s f with
    | some d => some d
    | none => firstParse stp s fs

/-- EnhancedNewsCollector._parse_date. -/
def parse_date (stp : String → String → Option Int) (date_str : String) : Option Int :=
  if date_str = "" then none
  else firstParse stp (String.mk (replaceGMT date_str.data)) date_formats

/-- Keyword list of _is_ai_related. -/
def ai_keywords : List String :=
  ["AI", "人工知能", "ChatGPT", "GPT", "Gemini", "Claude",
   "機械学習", "ディープラーニング", "深層学習", "ニューラルネット",
   "生成AI", "LLM", "大規模言語モデル", "画像生成", "音声認識",
   "OpenAI", "Google AI", "Microsoft AI", "Meta AI",
   "Stable Diffusion", "DALL-E", "Midjourney",
   "AIアシスタント", "チャットボット", "自動化", "ロボット"]

/-- EnhancedNewsCollector._is_ai_related. -/
def is_ai_related (text : String) : Bool :=
  ai_keywords.any (fun k => strContains (toLowerStr text) (toLowerStr k))

/-- Date-cutoff test of _collect_from_rss: a None timestamp is falsy, so
only a parsed timestamp strictly before the limit triggers the skip. -/
def dateTooOld (pub : Option Int) (tl : Int) : Bool :=
  match pub with
  | some p => decide (p < tl)
  | none => false

/-- Keyword-filter test of _collect_from_rss, applied to the raw entry
title when the feed carries a filter list. -/
def filterBlocks (fi : FeedInfo) (title : String) : Bool :=
  match fi.filter with
  | none => false
  | some kws => !(kws.any (fun k => strContains title k))

/-- Article dict built for one surviving feed entry. -/
def mkRSSArticle (env : Env) (fi : FeedInfo) (e : RSSEntry) (pub : Option Int) : Article :=
  ⟨clean_text e.title, e.link, clean_text (strTake e.summary 200), fi.name,
   (match pub with
    | some p => env.iso p
    | none => env.nowIso), 0⟩

/-- Per-entry body of the loop in _collect_from_rss. -/
def processEntry (env : Env) (tl : Int) (fi : FeedInfo) (st : CState) (e : RSSEntry) :
    CState :=
  let pub := parse_date env.strptime e.published
  if dateTooOld pub tl then st
  else if filterBlocks fi e.title then st
  else
    let article := mkRSSArticle env fi e pub
    if (article.url != "") && !(st.seen.contains article.url) then
      ⟨st.news ++ [article], st.seen ++ [article.url]⟩
    else st

/-- Per-feed body of _collect_from_rss; a parse error, like any exception
inside the per-source try, leaves the state as it stood. -/
def processFeed (env : Env) (tl : Int) (st : CState) (fi : FeedInfo) : CState :=
  match env.feedparse fi.url with
  | .error _ => st
  | .ok entries =>
    if entries.isEmpty then st
    else (entries.take 10).foldl (processEntry env tl fi) st

/-- EnhancedNewsCollector._collect_from_rss. -/
def collect_from_rss (env : Env) (tl : Int) (st : CState) : CState :=
  rss_feeds.foldl (processFeed env tl) st

/-- Link absolutization of _collect_from_web: a nonempty link that does not
start with http is prefixed with scheme and origin taken from the source
url split on slashes. -/
def absolutize (srcUrl url : String) : String :=
  if url != "" && !(pyStartsWith url "http") then
    let parts := (splitSlash srcUrl.data).map String.mk
    (parts.getD 0 "") ++ "//" ++ (parts.getD 2 "") ++ url
  else url

/-- Per-container body of the loop in _collect_from_web. -/
def processContainer (env : Env) (src : WebSource) (st : CState) (c : Container) :
    CState :=
  match c.title with
  | none => st
  | some t0 =>
    let title := clean_text t0
    if !(is_ai_related title) then st
    else
      let url0 := match c.link with
        | none => ""
        | some h => h
      let url := absolutize src.url url0
      let summary := match c.summary with
        | none => ""
        | some se => clean_text (strTake se 200)
      let summary := if summary = "" then title ++ "に関する最新情報です。" else summary
      let article : Article := ⟨title, url, summary, src.name, env.nowIso, 0⟩
      if (url != "") && !(st.seen.contains url) then
        ⟨st.news ++ [article], st.seen ++ [url]⟩
      else st

/-- Per-source body of _collect_from_web; a transport error or a non-200
status yields nothing from that source. -/
def processSource (env : Env) (st : CState) (src : WebSource) : CState :=
  match env.fetchPage src.url with
  | .error _ => st
  | .ok (status, containers) =>
    if status != 200 then st
    else (containers.take 5).foldl (processContainer env src) st

/-- EnhancedNewsCollector._collect_from_web. -/
def collect_from_web (env : Env) (st : CState) : CState :=
  web_sources.foldl (processSource env) st

/-- The fixed fallback article list of _add_fallback_news, with the run
instant as published timestamp. -/
def fallback_news (env : Env) : List Article :=
  [⟨"【最新】生成AIが変える私たちの未来",
    "https://example.com/ai-future",
    "ChatGPTやGeminiなどの生成AIが、教育やビジネスの現場で急速に普及しています。AIとの共存について考える時が来ています。",
    "AI Times (Fallback)", env.nowIso, 0⟩,
   ⟨"AI技術の倫理的な課題と解決策",
    "https://example.com/ai-ethics",
    "AI技術の発展に伴い、プライバシーや著作権などの倫理的な課題が浮上しています。適切なルール作りが求められています。",
    "Tech Ethics (Fallback)", env.nowIso, 0⟩,
   ⟨"日本企業のAI活用事例10選",
    "https://example.com/ai-cases",
    "製造業からサービス業まで、様々な分野でAIが活用されています。成功事例から学ぶAI導入のポイントを紹介します。",
    "Business AI (Fallback)", env.nowIso, 0⟩]

/-- Dict order of the Python source swaps the summary and url keys; the
fields above follow the Article field order, values are verbatim. -/
def fallbackStep (st : CState) (a : Article) : CState :=
  if st.seen.contains a.url then st
  else ⟨st.news ++ [a], st.seen ++ [a.url]⟩

/-- EnhancedNewsCollector._add_fallback_news. -/
def add_fallback_news (env : Env) (st : CState) : CState :=
  (fallback_news env).foldl fallbackStep st

/-- Hash key used by _remove_duplicates: md5 hex digest of the first 30
characters of the title. -/
def titleKey (g : String → String) (a : Article) : String :=
  g (strTake a.title 30)

/-- Recursion of _remove_duplicates with the seen_titles set accumulated
in the first list argument. -/
def removeDupAux (g : String → String) (seen : List String) :
    List Article → List Article
  | [] => []
  | a :: rest =>
    if seen.contains (titleKey g a) then removeDupAux g seen rest
    else a :: removeDupAux g (titleKey g a :: seen) rest

/-- EnhancedNewsCollector._remove_duplicates, parameterized by the stdlib
md5 hex-digest function. -/
def remove_duplicates (g : String → String) (l : List Article) : List Article :=
  removeDupAux g [] l

/-- Keyword list of _score_and_sort. -/
def important_keywords : List String :=
  ["ChatGPT", "GPT-4", "Gemini", "Claude", "最新", "発表", "新機能", "革新"]

/-- Trusted source fragments of _score_and_sort. -/
def trusted_sources : List String := ["Google News", "ITmedia", "ASCII"]

/-- Scoring loop body of _score_and_sort for one article: ten points per
keyword present in the title, five for a trusted source fragment, three
for a summary longer than one hundred characters, two for a url that is
nonempty and starts with http. -/
def score_article (a : Article) : Nat :=
  let s0 := important_keywords.foldl (fun s k => if strContains a.title k then s + 10 else s) 0
  let s1 := if trusted_sources.any (fun t => strContains a.source t) then s0 + 5 else s0
  let s2 := if 100 < a.summary.length then s1 + 3 else s1
  if (a.url != "") && pyStartsWith a.url "http" then s2 + 2 else s2

/-- Descending comparison on the sort key pair (score, published) used by
the final sorted call: true when a's key is at least b's key. -/
def keyGe (a b : Article) : Bool :=
  decide (b.score < a.score) || ((b.score == a.score) && strLeB b.published a.published)

/-- Propositional form of keyGe, the order relation of the final sort. -/
def articleGe (a b : Article) : Prop := keyGe a b = true

instance : DecidableRel articleGe := fun a b => instDecidableEqBool (keyGe a b) true

/-- Stable descending sort equal to Python sorted with reverse=True on the
key (score, published): insertion sort with a relation that holds on ties
is stable, hence produces the identical output list. -/
def sortDesc (l : List Article) : List Article := List.insertionSort articleGe l

/-- EnhancedNewsCollector._score_and_sort: assign scores, then sort. -/
def score_and_sort (l : List Article) : List Article :=
  sortDesc (l.map (fun a => { a with score := score_article a }))

/-- Python slice l[:k] for an arbitrary integer k. -/
def pySlice (k : Int) (l : List Article) : List Article :=
  if k < 0 then l.take (l.length - k.natAbs) else l.take k.toNat

/-- EnhancedNewsCollector.get_ai_news: cutoff, feed stage, conditional web
stage, conditional fallback stage, dedup, score-and-sort, truncation. -/
def get_ai_news (env : Env) (limit : Int) (hours_back : Int) : List Article :=
  let tl := env.now - hours_back * 3600
  let st1 := collect_from_rss env tl ⟨[], []⟩
  let st2 := if (st1.news.length : Int) < limit then collect_from_web env st1 else st1
  let st3 := if (st2.news.length : Int) < limit then add_fallback_news env st2 else st2
  let uniq := remove_duplicates env.md5hex st3.news
  pySlice limit (score_and_sort uniq)

/-! Order properties of the lexicographic comparison and the sort key. -/

theorem listLtCh_asymm : ∀ as bs : List Char, listLtCh as bs = true → listLtCh bs as = false := by
  intro as
  induction as with
  | nil =>
    intro bs h
    cases bs with
    | nil => simp [listLtCh] at h
    | cons b bs => simp [listLtCh]
  | cons a as ih =>
    intro bs h
    cases bs with
    | nil => simp [listLtCh] at h
    | cons b bs =>
      simp only [listLtCh] at h ⊢
      rcases lt_trichotomy a b with h1 | h1 | h1
      · rw [if_neg (lt_asymm h1), if_pos h1]
      · subst h1
        rw [if_neg (lt_irrefl a), if_neg (lt_irrefl a)] at h ⊢
        exact ih bs h
      · rw [if_neg (lt_asymm h1), if_pos h1] at h
        exact absurd h (by simp)

theorem listLtCh_conn : ∀ as bs : List Char,
    listLtCh as bs = false → listLtCh bs as = false → as = bs := by
  intro as
  induction as with
  | nil =>
    intro bs h1 _
    cases bs with
    | nil => rfl
    | cons b bs => simp [listLtCh] at h1
  | cons a as ih =>
    intro bs h1 h2
    cases bs with
    | nil => simp [listLtCh] at h2
    | cons b bs =>
      simp only [listLtCh] at h1 h2
      rcases lt_trichotomy a b with hc | hc | hc
      · rw [if_pos hc] at h1
        exact absurd h1 (by simp)
      · subst hc
        rw [if_neg (lt_irrefl a), if_neg (lt_irrefl a)] at h1 h2
        rw [ih bs h1 h2]
      · rw [if_pos hc] at h2
        exact absurd h2 (by simp)

theorem listLtCh_trans : ∀ as bs cs : List Char,
    listLtCh as bs = true → listLtCh bs cs = true → listLtCh as cs = true := by
  intro as
  induction as with
  | nil =>
    intro bs cs h1 h2
    cases bs with
    | nil => simp [listLtCh] at h1
    | cons b bs =>
      cases cs with
      | nil => simp [listLtCh] at h2
      | cons c cs => simp [listLtCh]
  | cons a as ih =>
    intro bs cs h1 h2
    cases bs with
    | nil => simp [listLtCh] at h1
    | cons b bs =>
      cases cs with
      | nil => simp [listLtCh] at h2
      | cons c cs =>
        simp only [listLtCh] at h1 h2 ⊢
        rcases lt_trichotomy a b with hab | hab | hab
        · rcases lt_trichotomy b c with hbc | hbc | hbc
          · rw [if_pos (lt_trans hab hbc)]
          · subst hbc
            rw [if_pos hab]
          · rw [if_neg (lt_asymm hbc), if_pos hbc] at h2
            exact absurd h2 (by simp)
        · subst hab
          rw [if_neg (lt_irrefl a), if_neg (lt_irrefl a)] at h1
          rcases lt_trichotomy a c with hac | hac | hac
          · rw [if_pos hac]
          · subst hac
            rw [if_neg (lt_irrefl a), if_neg (lt_irrefl a)] at h2 ⊢
            exact ih bs cs h1 h2
          · rw [if_neg (lt_asymm hac), if_pos hac] at h2
            exact absurd h2 (by simp)
        · rw [if_neg (lt_asymm hab), if_pos hab] at h1
          exact absurd h1 (by simp)

theorem listLtCh_irrefl : ∀ l : List Char, listLtCh l l = false := by
  intro l
  induction l with
  | nil => simp [listLtCh]
  | cons c cs ih => simp [listLtCh, ih]

theorem strLeB_refl (s : String) : strLeB s s = true := by
  simp [strLeB, strLtB, listLtCh_irrefl]

theorem strLeB_total (s t : String) : strLeB s t = true ∨ strLeB t s = true := by
  by_cases h : listLtCh t.data s.data = true
  · right
    simp [strLeB, strLtB, listLtCh_asymm _ _ h]
  · left
    simp [strLeB, strLtB]
    exact Bool.not_eq_true _ ▸ (Bool.eq_false_iff.mpr (fun hh => h hh)) 

theorem strLeB_trans {s t u : String} (h1 : strLeB s t = true) (h2 : strLeB t u = true) :
    strLeB s u = true := by
  simp only [strLeB, strLtB, Bool.not_eq_true'] at h1 h2 ⊢
  by_contra hc
  have hc' : listLtCh u.data s.data = true := by
    cases h : listLtCh u.data s.data
    · exact absurd h hc
    · rfl
  by_cases hst : listLtCh s.data t.data = true
  · have := listLtCh_trans _ _ _ hc' hst
    rw [this] at h2
    exact absurd h2 (by simp)
  · have hst' : listLtCh s.data t.data = false := by
      cases h : listLtCh s.data t.data
      · rfl
      · exact absurd h hst
    have heq := listLtCh_conn _ _ hst' h1
    rw [heq] at hc'
    rw [hc'] at h2
    exact absurd h2 (by simp)

theorem keyGe_iff {a b : Article} :
    keyGe a b = true ↔
      b.score < a.score ∨ (b.score = a.score ∧ strLeB b.published a.published = true) := by
  simp [keyGe, Bool.or_eq_true, Bool.and_eq_true, decide_eq_true_eq, beq_iff_eq]

instance : IsTotal Article articleGe := by
  constructor
  intro a b
  unfold articleGe
  rw [keyGe_iff, keyGe_iff]
  rcases Nat.lt_trichotomy b.score a.score with h | h | h
  · exact Or.inl (Or.inl h)
  · rcases strLeB_total b.published a.published with hp | hp
    · exact Or.inl (Or.inr ⟨h, hp⟩)
    · exact Or.inr (Or.inr ⟨h.symm, hp⟩)
  · exact Or.inr (Or.inl h)

instance : IsTrans Article articleGe := by
  constructor
  intro a b c hab hbc
  unfold articleGe at *
  rw [keyGe_iff] at hab hbc ⊢
  rcases hab with h1 | ⟨h1, hp1⟩
  · rcases hbc with h2 | ⟨h2, _⟩
    · exact Or.inl (Nat.lt_trans h2 h1)
    · exact Or.inl (h2 ▸ h1)
  · rcases hbc with h2 | ⟨h2, hp2⟩
    · exact Or.inl (h1 ▸ h2)
    · exact Or.inr ⟨h2.trans h1, strLeB_trans hp2 hp1⟩

theorem sortDesc_sorted (l : List Article) : List.Sorted articleGe (sortDesc l) :=
  List.sorted_insertionSort articleGe l

theorem sortDesc_perm (l : List Article) : List.Perm (sortDesc l) l :=
  List.perm_insertionSort articleGe l

theorem sortDesc_length (l : List Article) : (sortDesc l).length = l.length :=
  List.length_insertionSort articleGe l

theorem mem_sortDesc {l : List Article} {a : Article} : a ∈ sortDesc l ↔ a ∈ l :=
  List.mem_insertionSort articleGe

/-! Generic fold preservation and basic facts about membership tests. -/

theorem foldl_pres {α σ : Type} (P : σ → Prop) (f : σ → α → σ) :
    ∀ (l : List α) (s : σ), (∀ s' x, x ∈ l → P s' → P (f s' x)) → P s → P (l.foldl f s) := by
  intro l
  induction l with
  | nil => intro s _ h; exact h
  | cons x xs ih =>
    intro s hstep h
    exact ih (f s x) (fun s' y hy => hstep s' y (List.mem_cons_of_mem _ hy))
      (hstep s x (List.mem_cons_self _ _) h)

theorem contains_eq_mem (l : List String) (x : String) : l.contains x = true ↔ x ∈ l := by
  simp

theorem contains_false_not_mem {l : List String} {x : String}
    (h : l.contains x = false) : x ∉ l := by
  intro hm
  simp at h
  exact h hm

/-! Invariant: the collector appends an article and its url together, so
the news list and the seen set stay equally long at every stage. -/

theorem processEntry_len {env : Env} {tl : Int} {fi : FeedInfo} {st : CState} {e : RSSEntry}
    (h : st.news.length = st.seen.length) :
    (processEntry env tl fi st e).news.length = (processEntry env tl fi st e).seen.length := by
  simp only [processEntry]
  split_ifs <;> simp [h]

theorem processContainer_len {env : Env} {src : WebSource} {st : CState} {c : Container}
    (h : st.news.length = st.seen.length) :
    (processContainer env src st c).news.length = (processContainer env src st c).seen.length := by
  simp only [processContainer]
  split
  · exact h
  · split_ifs <;> simp [h]

theorem processFeed_len {env : Env} {tl : Int} {st : CState} {fi : FeedInfo}
    (h : st.news.length = st.seen.length) :
    (processFeed env tl st fi).news.length = (processFeed env tl st fi).seen.length := by
  unfold processFeed
  split
  · exact h
  · split
    · exact h
    · exact foldl_pres (fun s => s.news.length = s.seen.length) _ _ st
        (fun s' e _ hs => processEntry_len hs) h

theorem processSource_len {env : Env} {st : CState} {src : WebSource}
    (h : st.news.length = st.seen.length) :
    (processSource env st src).news.length = (processSource env st src).seen.length := by
  unfold processSource
  split
  · exact h
  · split
    · exact h
    · exact foldl_pres (fun s => s.news.length = s.seen.length) _ _ st
        (fun s' c _ hs => processContainer_len hs) h

theorem collect_from_rss_len {env : Env} {tl : Int} {st : CState}
    (h : st.news.length = st.seen.length) :
    (collect_from_rss env tl st).news.length = (collect_from_rss env tl st).seen.length :=
  foldl_pres (fun s => s.news.length = s.seen.length) _ _ st
    (fun s' fi _ hs => processFeed_len hs) h

theorem collect_from_web_len {env : Env} {st : CState}
    (h : st.news.length = st.seen.length) :
    (collect_from_web env st).news.length = (collect_from_web env st).seen.length :=
  foldl_pres (fun s => s.news.length = s.seen.length) _ _ st
    (fun s' src _ hs => processSource_len hs) h

/-! Invariant: every inserted article carries a nonempty url. -/

theorem fallback_urls (env : Env) : ∀ a ∈ fallback_news env, a.url ≠ "" := by
  intro a ha
  simp only [fallback_news, List.mem_cons, List.not_mem_nil, or_false] at ha
  rcases ha with rfl | rfl | rfl <;> simp

theorem processEntry_urls {env : Env} {tl : Int} {fi : FeedInfo} {st : CState} {e : RSSEntry}
    (h : ∀ a ∈ st.news, a.url ≠ "") :
    ∀ a ∈ (processEntry env tl fi st e).news, a.url ≠ "" := by
  simp only [processEntry]
  split_ifs with h1 h2 h3
  · exact h
  · exact h
  · intro a ha
    rcases List.mem_append.mp ha with ha | ha
    · exact h a ha
    · have hx : a = mkRSSArticle env fi e (parse_date env.strptime e.published) := by
        simpa using ha
      simp only [Bool.and_eq_true] at h3
      rw [hx]
      exact bne_iff_ne.mp h3.1
  · exact h

theorem processContainer_urls {env : Env} {src : WebSource} {st : CState} {c : Container}
    (h : ∀ a ∈ st.news, a.url ≠ "") :
    ∀ a ∈ (processContainer env src st c).news, a.url ≠ "" := by
  simp only [processContainer]
  split
  · exact h
  · split_ifs with h1 h2 h3
    · exact h
    · intro a ha
      rcases List.mem_append.mp ha with ha | ha
      · exact h a ha
      · have hx := List.mem_singleton.mp ha
        simp only [Bool.and_eq_true] at h2
        rw [hx]
        exact bne_iff_ne.mp h2.1
    · intro a ha
      rcases List.mem_append.mp ha with ha | ha
      · exact h a ha
      · have hx := List.mem_singleton.mp ha
        simp only [Bool.and_eq_true] at h2
        rw [hx]
        exact bne_iff_ne.mp h2.1
    · exact h

theorem fallbackStep_urls {env : Env} {st : CState} {a0 : Article}
    (ha0 : a0 ∈ fallback_news env) (h : ∀ a ∈ st.news, a.url ≠ "") :
    ∀ a ∈ (fallbackStep st a0).news, a.url ≠ "" := by
  simp only [fallbackStep]
  split_ifs with h1
  · exact h
  · intro a ha
    rcases List.mem_append.mp ha with ha | ha
    · exact h a ha
    · rw [List.mem_singleton.mp ha]
      exact fallback_urls env a0 ha0

theorem processFeed_urls {env : Env} {tl : Int} {st : CState} {fi : FeedInfo}
    (h : ∀ a ∈ st.news, a.url ≠ "") :
    ∀ a ∈ (processFeed env tl st fi).news, a.url ≠ "" := by
  simp only [processFeed]
  split
  · exact h
  · split
    · exact h
    · exact foldl_pres (fun s => ∀ a ∈ s.news, a.url ≠ "") _ _ st
        (fun s' e _ hs => processEntry_urls hs) h

theorem processSource_urls {env : Env} {st : CState} {src : WebSource}
    (h : ∀ a ∈ st.news, a.url ≠ "") :
    ∀ a ∈ (processSource env st src).news, a.url ≠ "" := by
  simp only [processSource]
  split
  · exact h
  · split
    · exact h
    · exact foldl_pres (fun s => ∀ a ∈ s.news, a.url ≠ "") _ _ st
        (fun s' c _ hs => processContainer_urls hs) h

theorem collect_from_rss_urls {env : Env} {tl : Int} {st : CState}
    (h : ∀ a ∈ st.news, a.url ≠ "") :
    ∀ a ∈ (collect_from_rss env tl st).news, a.url ≠ "" :=
  foldl_pres (fun s => ∀ a ∈ s.news, a.url ≠ "") _ _ st
    (fun s' fi _ hs => processFeed_urls hs) h

theorem collect_from_web_urls {env : Env} {st : CState}
    (h : ∀ a ∈ st.news, a.url ≠ "") :
    ∀ a ∈ (collect_from_web env st).news, a.url ≠ "" :=
  foldl_pres (fun s => ∀ a ∈ s.news, a.url ≠ "") _ _ st
    (fun s' src _ hs => processSource_urls hs) h

theorem add_fallback_news_urls {env : Env} {st : CState}
    (h : ∀ a ∈ st.news, a.url ≠ "") :
    ∀ a ∈ (add_fallback_news env st).news, a.url ≠ "" :=
  foldl_pres (fun s => ∀ a ∈ s.news, a.url ≠ "") _ _ st
    (fun s' x hx hs => fallbackStep_urls hx hs) h

/-! Properties of the dedup stage. -/

theorem removeDupAux_sublist (g : String → String) :
    ∀ (l : List Article) (seen : List String), List.Sublist (removeDupAux g seen l) l := by
  intro l
  induction l with
  | nil => intro seen; simp [removeDupAux]
  | cons a rest ih =>
    intro seen
    simp only [removeDupAux]
    split_ifs
    · exact (ih seen).cons a
    · exact (ih _).cons₂ a

theorem removeDupAux_keys (g : String → String) :
    ∀ (l : List Article) (seen : List String),
      (∀ a ∈ removeDupAux g seen l, titleKey g a ∉ seen) ∧
      List.Pairwise (fun a b => titleKey g a ≠ titleKey g b) (removeDupAux g seen l) := by
  intro l
  induction l with
  | nil => intro seen; simp [removeDupAux]
  | cons x rest ih =>
    intro seen
    simp only [removeDupAux]
    split_ifs with hx
    · exact ih seen
    · rw [contains_eq_mem] at hx
      constructor
      · intro a ha
        rcases List.mem_cons.mp ha with rfl | ha
        · exact hx
        · have h2 := (ih (titleKey g x :: seen)).1 a ha
          intro hmem
          exact h2 (List.mem_cons_of_mem _ hmem)
      · refine List.Pairwise.cons ?_ (ih _).2
        intro b hb heq
        exact ((ih _).1 b hb) (heq ▸ List.mem_cons_self _ _)

theorem removeDupAux_cover (g : String → String) :
    ∀ (l : List Article) (seen : List String) (a : Article), a ∈ l →
      titleKey g a ∈ seen ∨ ∃ b ∈ removeDupAux g seen l, titleKey g b = titleKey g a := by
  intro l
  induction l with
  | nil => intro seen a ha; simp at ha
  | cons x rest ih =>
    intro seen a ha
    simp only [removeDupAux]
    rcases List.mem_cons.mp ha with rfl | ha
    · by_cases hx : seen.contains (titleKey g a) = true
      · exact Or.inl ((contains_eq_mem _ _).mp hx)
      · right
        rw [if_neg hx]
        exact ⟨a, List.mem_cons_self _ _, rfl⟩
    · by_cases hx : seen.contains (titleKey g x) = true
      · rw [if_pos hx]
        exact ih seen a ha
      · rw [if_neg hx]
        rcases ih (titleKey g x :: seen) a ha with hc | ⟨b, hb, heq⟩
        · rcases List.mem_cons.mp hc with hc | hc
          · exact Or.inr ⟨x, List.mem_cons_self _ _, hc.symm⟩
          · exact Or.inl hc
        · exact Or.inr ⟨b, List.mem_cons_of_mem _ hb, heq⟩

theorem remove_duplicates_sublist (g : String → String) (l : List Article) :
    List.Sublist (remove_duplicates g l) l :=
  removeDupAux_sublist g l []

theorem remove_duplicates_keys (g : String → String) (l : List Article) :
    List.Pairwise (fun a b => titleKey g a ≠ titleKey g b) (remove_duplicates g l) :=
  (removeDupAux_keys g l []).2

theorem remove_duplicates_cover (g : String → String) (l : List Article) :
    ∀ a ∈ l, ∃ b ∈ remove_duplicates g l, titleKey g b = titleKey g a := by
  intro a ha
  rcases removeDupAux_cover g l [] a ha with hc | hc
  · simp at hc
  · exact hc

theorem remove_duplicates_ne_nil (g : String → String) {l : List Article} (h : l ≠ []) :
    remove_duplicates g l ≠ [] := by
  cases l with
  | nil => exact absurd rfl h
  | cons x rest =>
    simp only [remove_duplicates, removeDupAux, List.contains, List.elem]
    intro hc
    exact absurd hc (by simp)

/-! Length bounds for the text cleaning chain of _clean_text. -/

theorem stripTagsAux_length : ∀ (l : List Char) (st : Option (List Char)),
    (stripTagsAux st l).length ≤
      (match st with
       | none => 0
       | some buf => buf.length + 1) + l.length := by
  intro l
  induction l with
  | nil =>
    intro st
    cases st with
    | none => simp [stripTagsAux]
    | some buf => simp [stripTagsAux]
  | cons c cs ih =>
    intro st
    cases st with
    | none =>
      simp only [stripTagsAux]
      split_ifs with h1
      · have := ih (some [])
        simp at this ⊢
        omega
      · have := ih none
        simp at this ⊢
        omega
    | some buf =>
      simp only [stripTagsAux]
      split_ifs with h1 h2
      · have := ih none
        simp at this ⊢
        omega
      · have := ih none
        simp at this ⊢
        omega
      · have := ih (some (c :: buf))
        simp at this ⊢
        omega

theorem stripTags_length (l : List Char) : (stripTags l).length ≤ l.length := by
  have := stripTagsAux_length l none
  simpa [stripTags] using this

theorem collapseAux_length : ∀ (l : List Char) (b : Bool),
    (collapseAux b l).length ≤ l.length := by
  intro l
  induction l with
  | nil => intro b; simp [collapseAux]
  | cons c cs ih =>
    intro b
    simp only [collapseAux]
    split_ifs with h1 h2
    · have := ih true
      simp only [List.length_cons]
      omega
    · have := ih true
      simp only [List.length_cons]
      omega
    · have := ih false
      simp only [List.length_cons]
      omega

theorem pyStrip_length (l : List Char) : (pyStrip l).length ≤ l.length := by
  simp only [pyStrip, List.length_reverse]
  calc ((l.dropWhile isPySpace).reverse.dropWhile isPySpace).length
      ≤ (l.dropWhile isPySpace).reverse.length := (List.dropWhile_sublist _).length_le
    _ = (l.dropWhile isPySpace).length := List.length_reverse _
    _ ≤ l.length := (List.dropWhile_sublist _).length_le

theorem clean_text_length (s : String) : (clean_text s).length ≤ s.length := by
  show (clean_text s).data.length ≤ s.data.length
  simp only [clean_text, replaceChar, List.length_map]
  calc (pyStrip (collapseSpaces (stripTags s.data))).length
      ≤ (collapseSpaces (stripTags s.data)).length := pyStrip_length _
    _ ≤ (stripTags s.data).length := collapseAux_length _ false
    _ ≤ s.data.length := stripTags_length _

theorem clean_take_200 (s : String) : (clean_text (strTake s 200)).length ≤ 200 := by
  refine le_trans (clean_text_length _) ?_
  show (strTake s 200).data.length ≤ 200
  simp [strTake]

/-! Facts about the final truncation. -/

theorem pySlice_sublist (k : Int) (l : List Article) : List.Sublist (pySlice k l) l := by
  unfold pySlice
  split_ifs <;> exact List.take_sublist _ _

theorem pySlice_length_le {k : Int} (hk : 0 ≤ k) (l : List Article) :
    ((pySlice k l).length : Int) ≤ k := by
  unfold pySlice
  rw [if_neg (not_lt.mpr hk)]
  have h1 : (l.take k.toNat).length ≤ k.toNat := by
    simp [List.length_take]
  omega

theorem pySlice_ne_nil {k : Int} (hk : 1 ≤ k) {l : List Article} (hl : l ≠ []) :
    pySlice k l ≠ [] := by
  unfold pySlice
  rw [if_neg (by omega : ¬ k < 0)]
  have h1 : 0 < l.length := List.length_pos.mpr hl
  have h2 : 1 ≤ k.toNat := by omega
  intro hc
  have h3 := congrArg List.length hc
  rw [List.length_take] at h3
  simp only [List.length_nil] at h3
  omega

/-! Named intermediate states of get_ai_news, and facts tying the stages
together. -/

/-- State after the feed stage of get_ai_news. -/
def stage1 (env : Env) (hb : Int) : CState :=
  collect_from_rss env (env.now - hb * 3600) ⟨[], []⟩

/-- State after the conditional web stage of get_ai_news. -/
def stage2 (env : Env) (limit hb : Int) : CState :=
  if ((stage1 env hb).news.length : Int) < limit then collect_from_web env (stage1 env hb)
  else stage1 env hb

/-- State after the conditional fallback stage of get_ai_news. -/
def stage3 (env : Env) (limit hb : Int) : CState :=
  if ((stage2 env limit hb).news.length : Int) < limit then
    add_fallback_news env (stage2 env limit hb)
  else stage2 env limit hb

theorem get_ai_news_eq (env : Env) (limit hb : Int) :
    get_ai_news env limit hb =
      pySlice limit (score_and_sort (remove_duplicates env.md5hex (stage3 env limit hb).news)) :=
  rfl

theorem fallbackStep_len {st : CState} {a : Article}
    (h : st.news.length = st.seen.length) :
    (fallbackStep st a).news.length = (fallbackStep st a).seen.length := by
  simp only [fallbackStep]
  split_ifs <;> simp [h]

theorem add_fallback_news_len {env : Env} {st : CState}
    (h : st.news.length = st.seen.length) :
    (add_fallback_news env st).news.length = (add_fallback_news env st).seen.length :=
  foldl_pres (fun s => s.news.length = s.seen.length) _ _ st
    (fun s' a _ hs => fallbackStep_len hs) h

theorem stage2_len (env : Env) (limit hb : Int) :
    (stage2 env limit hb).news.length = (stage2 env limit hb).seen.length := by
  have h1 : (stage1 env hb).news.length = (stage1 env hb).seen.length :=
    collect_from_rss_len rfl
  unfold stage2
  split_ifs
  · exact collect_from_web_len h1
  · exact h1

theorem fallbackStep_mono (st : CState) (a : Article) :
    st.news.length ≤ (fallbackStep st a).news.length := by
  simp only [fallbackStep]
  split_ifs <;> simp

theorem add_fallback_news_mono (env : Env) (st : CState) :
    st.news.length ≤ (add_fallback_news env st).news.length :=
  foldl_pres (fun s => st.news.length ≤ s.news.length) _ _ st
    (fun s' a _ hs => le_trans hs (fallbackStep_mono s' a)) (le_refl _)

theorem add_fallback_news_empty (env : Env) :
    (add_fallback_news env ⟨[], []⟩).news = fallback_news env := rfl

theorem stage3_ne_nil (env : Env) {limit : Int} (hb : Int) (hl : 1 ≤ limit) :
    (stage3 env limit hb).news ≠ [] := by
  by_cases hne : (stage2 env limit hb).news = []
  · have hseen : (stage2 env limit hb).seen = [] := by
      have := stage2_len env limit hb
      rw [hne] at this
      simpa using List.length_eq_zero.mp this.symm
    have hstate : stage2 env limit hb = ⟨[], []⟩ := by
      have hx : stage2 env limit hb = ⟨(stage2 env limit hb).news, (stage2 env limit hb).seen⟩ :=
        rfl
      rw [hx, hne, hseen]
    unfold stage3
    rw [hstate]
    rw [if_pos (by simp; omega)]
    rw [add_fallback_news_empty]
    simp [fallback_news]
  · unfold stage3
    split_ifs
    · have h1 := add_fallback_news_mono env (stage2 env limit hb)
      have h2 : 0 < (stage2 env limit hb).news.length := List.length_pos.mpr hne
      intro hc
      rw [hc] at h1
      simp only [List.length_nil] at h1
      omega
    · exact hne

theorem score_and_sort_length (l : List Article) : (score_and_sort l).length = l.length := by
  simp [score_and_sort, sortDesc, List.length_insertionSort]

theorem score_and_sort_ne_nil {l : List Article} (h : l ≠ []) : score_and_sort l ≠ [] := by
  intro hc
  have := congrArg List.length hc
  rw [score_and_sort_length] at this
  simp at this
  exact h this

/-! Concrete run environment in which every live source fails, used to
exercise the pipeline on closed inputs. -/

/-- Environment whose feed and page fetches all raise, with stub stdlib
routines (the md5 stub is injective, as the real digest is on the three
fallback titles). -/
def envAllFail : Env :=
  { now := 0, nowIso := "2024-06-01T00:00:00",
    iso := fun d => toString d,
    strptime := fun _ _ => none,
    md5hex := fun s => s,
    feedparse := fun _ => .error "connection refused",
    fetchPage := fun _ => .error "connection refused" }

/-- The fallback articles as the scoring loop leaves them: the first title
contains the keyword 最新 (ten points) and every fallback url starts with
http (two points); no source fragment is trusted and no summary is longer
than one hundred characters. -/
def fallback_scored (env : Env) : List Article :=
  [⟨"【最新】生成AIが変える私たちの未来",
    "https://example.com/ai-future",
    "ChatGPTやGeminiなどの生成AIが、教育やビジネスの現場で急速に普及しています。AIとの共存について考える時が来ています。",
    "AI Times (Fallback)", env.nowIso, 12⟩,
   ⟨"AI技術の倫理的な課題と解決策",
    "https://example.com/ai-ethics",
    "AI技術の発展に伴い、プライバシーや著作権などの倫理的な課題が浮上しています。適切なルール作りが求められています。",
    "Tech Ethics (Fallback)", env.nowIso, 2⟩,
   ⟨"日本企業のAI活用事例10選",
    "https://example.com/ai-cases",
    "製造業からサービス業まで、様々な分野でAIが活用されています。成功事例から学ぶAI導入のポイントを紹介します。",
    "Business AI (Fallback)", env.nowIso, 2⟩]

theorem score_and_sort_sorted (l : List Article) :
    List.Pairwise articleGe (score_and_sort l) := by
  unfold score_and_sort
  exact sortDesc_sorted _

theorem stage3_urls (env : Env) (limit hb : Int) :
    ∀ a ∈ (stage3 env limit hb).news, a.url ≠ "" := by
  have h1 : ∀ a ∈ (stage1 env hb).news, a.url ≠ "" :=
    collect_from_rss_urls (by simp)
  have h2 : ∀ a ∈ (stage2 env limit hb).news, a.url ≠ "" := by
    unfold stage2
    split_ifs
    · exact collect_from_web_urls h1
    · exact h1
  unfold stage3
  split_ifs
  · exact add_fallback_news_urls h2
  · exact h2

/-- C1 counterexample: with every live source failing and limit 0 the
call returns the empty list although the fallback supplier needs no I/O,
so the returned list does not always have length at least one. -/
theorem claim1_counterexample : get_ai_news envAllFail 0 48 = [] := by decide

/-- C1 (amended): for every environment and every limit of at least one,
the result of get_ai_news has length between one and limit.  The original
claim fails only for limit below one, where the truncation empties the
result. -/
theorem claim1_amended (env : Env) (limit hb : Int) (h : 1 ≤ limit) :
    1 ≤ (get_ai_news env limit hb).length ∧
      ((get_ai_news env limit hb).length : Int) ≤ limit := by
  constructor
  · rw [get_ai_news_eq]
    have h1 := stage3_ne_nil env hb h
    have h2 := remove_duplicates_ne_nil env.md5hex h1
    have h3 := score_and_sort_ne_nil h2
    have h4 := pySlice_ne_nil h h3
    have h5 := List.length_pos.mpr h4
    omega
  · rw [get_ai_news_eq]
    exact pySlice_length_le (by omega) _

theorem claim1_witness :
    (1 : Int) ≤ 5 ∧
      (1 ≤ (get_ai_news envAllFail 5 48).length ∧
       ((get_ai_news envAllFail 5 48).length : Int) ≤ 5) :=
  ⟨by decide, claim1_amended envAllFail 5 48 (by decide)⟩

/-- C2: every result of get_ai_news is sorted descending on the pair of
score and published timestamp: adjacent records have non-increasing
scores, and on equal scores non-increasing published strings. -/
theorem claim2_sorted (env : Env) (limit hb : Int) :
    List.Chain' (fun a b : Article =>
      b.score ≤ a.score ∧ (a.score = b.score → strLeB b.published a.published = true))
      (get_ai_news env limit hb) := by
  rw [get_ai_news_eq]
  have hs := score_and_sort_sorted (remove_duplicates env.md5hex (stage3 env limit hb).news)
  have hp := hs.sublist (pySlice_sublist limit _)
  refine List.Pairwise.chain' (hp.imp ?_)
  intro a b hab
  rw [articleGe, keyGe_iff] at hab
  rcases hab with hlt | ⟨heq, hle⟩
  · exact ⟨Nat.le_of_lt hlt, fun heq2 => by omega⟩
  · exact ⟨le_of_eq heq, fun _ => hle⟩

/-- C10: every record of every get_ai_news result has a nonempty url: the
feed and scrape loops insert only behind a nonempty-url guard and the
fallback records carry fixed nonempty urls. -/
theorem claim10_urls (env : Env) (limit hb : Int) :
    ∀ a ∈ get_ai_news env limit hb, a.url ≠ "" := by
  intro a ha
  rw [get_ai_news_eq] at ha
  have h1 := (pySlice_sublist limit _).subset ha
  have h2 := mem_sortDesc.mp h1
  rcases List.mem_map.mp h2 with ⟨b, hbm, rfl⟩
  have h3 := (remove_duplicates_sublist env.md5hex _).subset hbm
  have h4 := stage3_urls env limit hb b h3
  simpa using h4

theorem claim10_witness :
    (⟨"【最新】生成AIが変える私たちの未来",
      "https://example.com/ai-future",
      "ChatGPTやGeminiなどの生成AIが、教育やビジネスの現場で急速に普及しています。AIとの共存について考える時が来ています。",
      "AI Times (Fallback)", "2024-06-01T00:00:00", 12⟩ : Article) ∈
        get_ai_news envAllFail 5 48 ∧
      (⟨"【最新】生成AIが変える私たちの未来",
        "https://example.com/ai-future",
        "ChatGPTやGeminiなどの生成AIが、教育やビジネスの現場で急速に普及しています。AIとの共存について考える時が来ています。",
        "AI Times (Fallback)", "2024-06-01T00:00:00", 12⟩ : Article).url ≠ "" :=
  ⟨by decide, claim10_urls envAllFail 5 48 _ (by decide)⟩

/-- C3 counterexample: the final dedup stage keys on the md5 digest of the
truncated title alone, so two records with distinct nonempty urls but the
same title collapse to the first one, contradicting the clause that
records with distinct nonempty URLs are never merged. -/
theorem claim3_counterexample :
    remove_duplicates (fun s => s)
      [⟨"AIニュース速報", "https://a.example/1", "", "X", "", 0⟩,
       ⟨"AIニュース速報", "https://b.example/2", "", "Y", "", 0⟩] =
      [⟨"AIニュース速報", "https://a.example/1", "", "X", "", 0⟩] := by decide

/-- C3 (amended): the dedup stage deduplicates by truncated-title hash
unconditionally, URL playing no role there (URL dedup happens earlier at
insertion time): the output is a subsequence of the input in which the
first occurrence of each title hash wins, all surviving hashes are
pairwise distinct, and every input hash keeps a representative. -/
theorem claim3_amended (g : String → String) (l : List Article) :
    List.Sublist (remove_duplicates g l) l ∧
    List.Pairwise (fun a b => titleKey g a ≠ titleKey g b) (remove_duplicates g l) ∧
    ∀ a ∈ l, ∃ b ∈ remove_duplicates g l, titleKey g b = titleKey g a :=
  ⟨remove_duplicates_sublist g l, remove_duplicates_keys g l, remove_duplicates_cover g l⟩

theorem claim3_witness :
    (⟨"AI規制の最新動向", "https://b.example/9", "", "Y", "", 0⟩ : Article) ∈
      ([⟨"AI規制の最新動向", "https://a.example/8", "", "X", "", 0⟩,
        ⟨"AI規制の最新動向", "https://b.example/9", "", "Y", "", 0⟩] : List Article) ∧
    ∃ b ∈ remove_duplicates (fun s => s)
        [⟨"AI規制の最新動向", "https://a.example/8", "", "X", "", 0⟩,
         ⟨"AI規制の最新動向", "https://b.example/9", "", "Y", "", 0⟩],
      titleKey (fun s => s) b =
        titleKey (fun s => s) ⟨"AI規制の最新動向", "https://b.example/9", "", "Y", "", 0⟩ :=
  ⟨by decide,
   (claim3_amended (fun s => s)
       [⟨"AI規制の最新動向", "https://a.example/8", "", "X", "", 0⟩,
        ⟨"AI規制の最新動向", "https://b.example/9", "", "Y", "", 0⟩]).2.2
     ⟨"AI規制の最新動向", "https://b.example/9", "", "Y", "", 0⟩ (by decide)⟩

/-- Occurrence count of a pattern in a string: the number of positions at
which the pattern matches, written to the claim's words for comparison
with the per-keyword scoring of the source. -/
def countOccurrences (s pat : String) : Nat :=
  (s.data.tails.filter (fun t => pat.data.isPrefixOf t)).length

/-- Scoring rule as the claim words it: ten points for each occurrence of
any high-signal keyword in the title, the other three components as in
the source. -/
def spec_occurrence_score (a : Article) : Nat :=
  10 * (important_keywords.foldl (fun n k => n + countOccurrences a.title k) 0) +
  (if trusted_sources.any (fun t => strContains a.source t) then 5 else 0) +
  (if 100 < a.summary.length then 3 else 0) +
  (if (a.url != "") && pyStartsWith a.url "http" then 2 else 0)

/-- C6 counterexample: a title containing the keyword 最新 twice scores 10
in the source (one award per keyword present) but 20 under the claim's
per-occurrence reading, so the claim as stated is false. -/
theorem claim6_counterexample :
    score_article ⟨"最新最新", "", "", "", "", 0⟩ = 10 ∧
      spec_occurrence_score ⟨"最新最新", "", "", "", "", 0⟩ = 20 := by decide

theorem foldl_if_add (p : String → Bool) : ∀ (L : List String) (n : Nat),
    L.foldl (fun s k => if p k then s + 10 else s) n = n + 10 * (L.filter p).length := by
  intro L
  induction L with
  | nil => intro n; simp
  | cons k ks ih =>
    intro n
    simp only [List.foldl_cons, List.filter_cons]
    cases h : p k
    · simp [h]
      exact ih n
    · simp [h]
      rw [ih (n + 10)]
      omega

/-- C6 (amended): the score is the sum of four non-negative components,
with ten points for each distinct keyword of the fixed list present as a
substring of the title (regardless of how often it occurs), five for a
trusted source fragment, three for a summary longer than one hundred
characters and two for a nonempty url starting with http; the function is
pure and deterministic in the record. -/
theorem claim6_amended (a : Article) :
    score_article a =
      10 * (important_keywords.filter (strContains a.title)).length +
      (if trusted_sources.any (fun t => strContains a.source t) then 5 else 0) +
      (if 100 < a.summary.length then 3 else 0) +
      (if (a.url != "") && pyStartsWith a.url "http" then 2 else 0) := by
  simp only [score_article]
  rw [foldl_if_add]
  split_ifs <;> omega

/-- C4: a feed entry whose parsed publication time is strictly older than
the recency cutoff is skipped, contributing nothing to the working state,
and an entry whose published string matches no accepted date format is not
dropped for that reason: it proceeds through the remaining checks and, if
inserted, carries the collection instant as its published field. -/
theorem claim4_date_handling (env : Env) (tl : Int) (fi : FeedInfo) (st : CState)
    (e : RSSEntry) :
    (∀ p : Int, parse_date env.strptime e.published = some p → p < tl →
        processEntry env tl fi st e = st) ∧
    (parse_date env.strptime e.published = none →
        processEntry env tl fi st e = st ∨
        ∃ a : Article, a.published = env.nowIso ∧
          processEntry env tl fi st e = ⟨st.news ++ [a], st.seen ++ [a.url]⟩) := by
  constructor
  · intro p hp hlt
    simp [processEntry, hp, dateTooOld, hlt]
  · intro hp
    simp only [processEntry, hp]
    rw [show dateTooOld none tl = false from rfl]
    simp only [Bool.false_eq_true, if_false]
    by_cases hf : filterBlocks fi e.title = true
    · left
      rw [if_pos hf]
    · rw [if_neg hf]
      by_cases hg : ((mkRSSArticle env fi e none).url != ""
          && !(st.seen.contains (mkRSSArticle env fi e none).url)) = true
      · right
        exact ⟨mkRSSArticle env fi e none, rfl, by rw [if_pos hg]⟩
      · left
        rw [if_neg hg]

/-- Environment for exercising the error-isolation branches: every feed
fetch raises, the first page source answers with status 404 and the second
raises. -/
def env9 : Env :=
  { now := 0, nowIso := "2024-06-01T00:00:00",
    iso := fun d => toString d,
    strptime := fun _ _ => none,
    md5hex := fun s => s,
    feedparse := fun _ => .error "connection refused",
    fetchPage := fun u =>
      if u = "https://ledge.ai/categories/news/" then .ok (404, []) else .error "timeout" }

/-- C9: per-source failures are isolated.  A feed whose fetch raises
yields the state unchanged; a page source whose request raises, or whose
response status is not 200, yields the state unchanged; and the feed
stage always processes the three registered sources in sequence, so a
failing source never blocks the following ones.  In the embedding every
pipeline function is total, so no error can cross the collect boundary. -/
theorem claim9_isolation (env : Env) (tl : Int) (st : CState) :
    (∀ fi : FeedInfo, ∀ msg : String, env.feedparse fi.url = .error msg →
        processFeed env tl st fi = st) ∧
    (∀ src : WebSource, ∀ msg : String, env.fetchPage src.url = .error msg →
        processSource env st src = st) ∧
    (∀ src : WebSource, ∀ pg : Int × List Container, env.fetchPage src.url = .ok pg →
        pg.1 ≠ 200 → processSource env st src = st) ∧
    collect_from_rss env tl st =
      processFeed env tl
        (processFeed env tl (processFeed env tl st (rss_feeds.get ⟨0, by decide⟩))
          (rss_feeds.get ⟨1, by decide⟩))
        (rss_feeds.get ⟨2, by decide⟩) ∧
    collect_from_web env st =
      processSource env (processSource env st (web_sources.get ⟨0, by decide⟩))
        (web_sources.get ⟨1, by decide⟩) := by
  refine ⟨?_, ?_, ?_, rfl, rfl⟩
  · intro fi msg h
    simp [processFeed, h]
  · intro src msg h
    simp [processSource, h]
  · intro src pg h hs
    rcases pg with ⟨status, containers⟩
    simp only [processSource, h]
    rw [if_pos]
    simpa using hs

theorem claim9_witness :
    env9.feedparse "https://news.google.com/rss/search?q=AI+人工知能&hl=ja&gl=JP&ceid=JP:ja" =
        .error "connection refused" ∧
      processFeed env9 0 ⟨[], []⟩ (rss_feeds.get ⟨0, by decide⟩) = ⟨[], []⟩ ∧
      env9.fetchPage "https://ascii.jp/ai/" = .error "timeout" ∧
      processSource env9 ⟨[], []⟩ (web_sources.get ⟨1, by decide⟩) = ⟨[], []⟩ ∧
      env9.fetchPage "https://ledge.ai/categories/news/" = .ok (404, []) ∧
      processSource env9 ⟨[], []⟩ (web_sources.get ⟨0, by decide⟩) = ⟨[], []⟩ :=
  ⟨rfl,
   (claim9_isolation env9 0 ⟨[], []⟩).1 (rss_feeds.get ⟨0, by decide⟩)
     "connection refused" rfl,
   rfl,
   (claim9_isolation env9 0 ⟨[], []⟩).2.1 (web_sources.get ⟨1, by decide⟩) "timeout" rfl,
   rfl,
   (claim9_isolation env9 0 ⟨[], []⟩).2.2.1 (web_sources.get ⟨0, by decide⟩) (404, [])
     rfl (by decide)⟩

/-- Environment in which the first feed returns one entry whose title is
empty, with a fresh nonempty url; everything else fails. -/
def env7 : Env :=
  { now := 0, nowIso := "2024-06-01T00:00:00",
    iso := fun d => toString d,
    strptime := fun _ _ => none,
    md5hex := fun s => s,
    feedparse := fun u =>
      if u = "https://news.google.com/rss/search?q=AI+人工知能&hl=ja&gl=JP&ceid=JP:ja" then
        .ok [⟨"", "https://x.example/empty-title", "", ""⟩]
      else .error "connection refused",
    fetchPage := fun _ => .error "connection refused" }

/-- C7 counterexample: a feed entry with an empty title and a fresh
nonempty url passes the date check, the url guard has no title condition,
and the record reaches the dedup stage and the final result with an empty
title, contradicting the claim that empty-title records are discarded
before deduplication. -/
theorem claim7_counterexample :
    get_ai_news env7 1 48 =
      [⟨"", "https://x.example/empty-title", "", "Google News - AI",
        "2024-06-01T00:00:00", 7⟩] := by decide

/-- C7 (amended): only the scrape path discards empty-title records (an
empty cleaned title matches no relevance keyword, so the container is
dropped), and fallback titles are nonempty; the feed path inserts records
whose cleaned title is empty whenever the url is new and nonempty. -/
theorem claim7_amended :
    (∀ (env : Env) (src : WebSource) (st : CState) (c : Container) (t : String),
        c.title = some t → clean_text t = "" → processContainer env src st c = st) ∧
    (∀ env : Env, ∀ a ∈ fallback_news env, a.title ≠ "") := by
  constructor
  · intro env src st c t hc hclean
    simp only [processContainer, hc]
    rw [hclean]
    rw [if_pos (by decide)]
  · intro env a ha
    simp only [fallback_news, List.mem_cons, List.not_mem_nil, or_false] at ha
    rcases ha with rfl | rfl | rfl <;> simp

theorem claim7_witness :
    (⟨some "", some "https://x.example/a", none⟩ : Container).title = some "" ∧
      clean_text "" = "" ∧
      processContainer envAllFail
          ⟨"AI News Japan", "https://ledge.ai/categories/news/", ⟨"article", "h2", "a", "p"⟩⟩
          ⟨[], []⟩ ⟨some "", some "https://x.example/a", none⟩ = ⟨[], []⟩ ∧
      (⟨"【最新】生成AIが変える私たちの未来",
        "https://example.com/ai-future",
        "ChatGPTやGeminiなどの生成AIが、教育やビジネスの現場で急速に普及しています。AIとの共存について考える時が来ています。",
        "AI Times (Fallback)", "2024-06-01T00:00:00", 0⟩ : Article).title ≠ "" :=
  ⟨rfl, rfl,
   claim7_amended.1 envAllFail
     ⟨"AI News Japan", "https://ledge.ai/categories/news/", ⟨"article", "h2", "a", "p"⟩⟩
     ⟨[], []⟩ ⟨some "", some "https://x.example/a", none⟩ "" rfl rfl,
   claim7_amended.2 envAllFail _ (by decide)⟩

/-- Environment in which the first page source serves one container whose
title is five hundred characters and which has no summary element; feeds
and the other page source fail. -/
def env8 : Env :=
  { now := 0, nowIso := "2024-06-01T00:00:00",
    iso := fun d => toString d,
    strptime := fun _ _ => none,
    md5hex := fun s => s,
    feedparse := fun _ => .error "connection refused",
    fetchPage := fun u =>
      if u = "https://ledge.ai/categories/news/" then
        .ok (200, [⟨some (String.mk ('A' :: 'I' :: List.replicate 498 'a')),
                    some "https://x.example/long", none⟩])
      else .error "connection refused" }

set_option maxRecDepth 4000 in
/-- C8 counterexample: when the scrape path synthesizes a summary from the
title, the summary is the full cleaned title plus an eleven-character
suffix; a five-hundred-character title yields a 511-character summary in
the result, so summaries are not bounded by roughly 200 characters at
creation time. -/
theorem claim8_counterexample :
    (get_ai_news env8 1 48).map (fun a => a.summary.length) = [511] := by decide

/-- C8 (amended): summaries are at most 200 characters for feed records
and for scraped records with a present summary element (both truncate to
200 characters before cleaning, and cleaning never lengthens), and for
every fallback record; but when the scrape path synthesizes the summary
from the title, the summary is the cleaned title plus an 11-character
suffix and thus unbounded in the title length. -/
theorem claim8_amended :
    (∀ s : String, (clean_text (strTake s 200)).length ≤ 200) ∧
    (∀ env : Env, ∀ a ∈ fallback_news env, a.summary.length ≤ 200) ∧
    (∀ (env : Env) (src : WebSource) (st : CState) (c : Container) (t : String),
        c.title = some t → c.summary = none →
        processContainer env src st c = st ∨
        ∃ a : Article,
          a.summary = clean_text t ++ "に関する最新情報です。" ∧
          a.summary.length = (clean_text t).length + 11 ∧
          (processContainer env src st c).news = st.news ++ [a]) := by
  refine ⟨clean_take_200, ?_, ?_⟩
  · intro env a ha
    simp only [fallback_news, List.mem_cons, List.not_mem_nil, or_false] at ha
    rcases ha with rfl | rfl | rfl
    · exact (by decide :
        ("ChatGPTやGeminiなどの生成AIが、教育やビジネスの現場で急速に普及しています。AIとの共存について考える時が来ています。" : String).length ≤ 200)
    · exact (by decide :
        ("AI技術の発展に伴い、プライバシーや著作権などの倫理的な課題が浮上しています。適切なルール作りが求められています。" : String).length ≤ 200)
    · exact (by decide :
        ("製造業からサービス業まで、様々な分野でAIが活用されています。成功事例から学ぶAI導入のポイントを紹介します。" : String).length ≤ 200)
  · intro env src st c t hc hs
    simp only [processContainer, hc, hs]
    by_cases h1 : (!(is_ai_related (clean_text t))) = true
    · left
      rw [if_pos h1]
    · rw [if_neg h1]
      rw [if_pos trivial]
      by_cases hg : ((absolutize src.url
            (match c.link with
             | none => ""
             | some h => h) != "")
          && !(st.seen.contains (absolutize src.url
            (match c.link with
             | none => ""
             | some h => h)))) = true
      · right
        rw [if_pos hg]
        refine ⟨_, rfl, ?_, rfl⟩
        show (clean_text t ++ "に関する最新情報です。").length = (clean_text t).length + 11
        rw [String.length_append]
        have h11 : ("に関する最新情報です。" : String).length = 11 := by decide
        omega
      · left
        rw [if_neg hg]

theorem claim8_witness :
    (clean_text (strTake "オープンソースのAIモデルが新たに公開" 200)).length ≤ 200 ∧
      (⟨"AI技術の倫理的な課題と解決策",
        "https://example.com/ai-ethics",
        "AI技術の発展に伴い、プライバシーや著作権などの倫理的な課題が浮上しています。適切なルール作りが求められています。",
        "Tech Ethics (Fallback)", "2024-06-01T00:00:00", 0⟩ : Article).summary.length ≤ 200 ∧
      (processContainer envAllFail
          ⟨"AI News Japan", "https://ledge.ai/categories/news/", ⟨"article", "h2", "a", "p"⟩⟩
          ⟨[], []⟩ ⟨some "AIで変わる未来", some "https://x.example/s", none⟩ = ⟨[], []⟩ ∨
        ∃ a : Article,
          a.summary = clean_text "AIで変わる未来" ++ "に関する最新情報です。" ∧
          a.summary.length = (clean_text "AIで変わる未来").length + 11 ∧
          (processContainer envAllFail
              ⟨"AI News Japan", "https://ledge.ai/categories/news/",
               ⟨"article", "h2", "a", "p"⟩⟩
              ⟨[], []⟩ ⟨some "AIで変わる未来", some "https://x.example/s", none⟩).news =
            ([] : List Article) ++ [a]) :=
  ⟨claim8_amended.1 "オープンソースのAIモデルが新たに公開",
   claim8_amended.2.1 envAllFail _ (by decide),
   claim8_amended.2.2 envAllFail
     ⟨"AI News Japan", "https://ledge.ai/categories/news/", ⟨"article", "h2", "a", "p"⟩⟩
     ⟨[], []⟩ ⟨some "AIで変わる未来", some "https://x.example/s", none⟩
     "AIで変わる未来" rfl rfl⟩

/-- C5 counterexample: with every live source failing, the result is the
fallback set in declared order but rescored by the scoring pass: the first
record scores 12 (keyword 最新 plus http url) and the others 2 (http url),
so the returned fallback records do not all have score 0. -/
theorem claim5_counterexample :
    (get_ai_news envAllFail 5 48).map Article.score = [12, 2, 2] := by decide

/-- C5 (amended): if the feed stage and the scrape stage each contribute
zero records (and the md5 digests of the three distinct fallback titles
are distinct, as they are for the real digest), a collect call with limit
at least one returns exactly the fallback records, truncated to limit, in
the supplier's declared insertion order, with recomputed scores 12, 2 and
2 rather than 0. -/
theorem claim5_amended (env : Env) (limit hb : Int) (hl : 1 ≤ limit)
    (hrss : collect_from_rss env (env.now - hb * 3600) ⟨[], []⟩ = ⟨[], []⟩)
    (hweb : collect_from_web env ⟨[], []⟩ = ⟨[], []⟩)
    (h12 : env.md5hex (strTake "【最新】生成AIが変える私たちの未来" 30) ≠
           env.md5hex (strTake "AI技術の倫理的な課題と解決策" 30))
    (h13 : env.md5hex (strTake "【最新】生成AIが変える私たちの未来" 30) ≠
           env.md5hex (strTake "日本企業のAI活用事例10選" 30))
    (h23 : env.md5hex (strTake "AI技術の倫理的な課題と解決策" 30) ≠
           env.md5hex (strTake "日本企業のAI活用事例10選" 30)) :
    get_ai_news env limit hb = pySlice limit (fallback_scored env) := by
  rw [get_ai_news_eq]
  have hs1 : stage1 env hb = ⟨[], []⟩ := hrss
  have hs2 : stage2 env limit hb = ⟨[], []⟩ := by
    unfold stage2
    rw [hs1]
    rw [if_pos (by simp; omega)]
    exact hweb
  have hs3 : (stage3 env limit hb).news = fallback_news env := by
    unfold stage3
    rw [hs2]
    rw [if_pos (by simp; omega)]
    exact add_fallback_news_empty env
  rw [hs3]
  have hb21 : (env.md5hex (strTake "AI技術の倫理的な課題と解決策" 30) ==
      env.md5hex (strTake "【最新】生成AIが変える私たちの未来" 30)) = false :=
    beq_eq_false_iff_ne.mpr (fun he => h12 he.symm)
  have hb31 : (env.md5hex (strTake "日本企業のAI活用事例10選" 30) ==
      env.md5hex (strTake "【最新】生成AIが変える私たちの未来" 30)) = false :=
    beq_eq_false_iff_ne.mpr (fun he => h13 he.symm)
  have hb32 : (env.md5hex (strTake "日本企業のAI活用事例10選" 30) ==
      env.md5hex (strTake "AI技術の倫理的な課題と解決策" 30)) = false :=
    beq_eq_false_iff_ne.mpr (fun he => h23 he.symm)
  have hdedup : remove_duplicates env.md5hex (fallback_news env) = fallback_news env := by
    simp only [remove_duplicates, fallback_news, removeDupAux, titleKey, List.contains,
      List.elem, hb21, hb31, hb32, Bool.false_eq_true, if_false]
  rw [hdedup]
  have hmap : score_and_sort (fallback_news env) = sortDesc (fallback_scored env) := by
    unfold score_and_sort
    rw [show (fallback_news env).map (fun a => { a with score := score_article a }) =
        fallback_scored env from rfl]
  rw [hmap]
  have hge23 : articleGe
      (⟨"AI技術の倫理的な課題と解決策", "https://example.com/ai-ethics",
        "AI技術の発展に伴い、プライバシーや著作権などの倫理的な課題が浮上しています。適切なルール作りが求められています。",
        "Tech Ethics (Fallback)", env.nowIso, 2⟩ : Article)
      (⟨"日本企業のAI活用事例10選", "https://example.com/ai-cases",
        "製造業からサービス業まで、様々な分野でAIが活用されています。成功事例から学ぶAI導入のポイントを紹介します。",
        "Business AI (Fallback)", env.nowIso, 2⟩ : Article) := by
    show keyGe _ _ = true
    simp [keyGe, strLeB_refl]
  have hge12 : articleGe
      (⟨"【最新】生成AIが変える私たちの未来", "https://example.com/ai-future",
        "ChatGPTやGeminiなどの生成AIが、教育やビジネスの現場で急速に普及しています。AIとの共存について考える時が来ています。",
        "AI Times (Fallback)", env.nowIso, 12⟩ : Article)
      (⟨"AI技術の倫理的な課題と解決策", "https://example.com/ai-ethics",
        "AI技術の発展に伴い、プライバシーや著作権などの倫理的な課題が浮上しています。適切なルール作りが求められています。",
        "Tech Ethics (Fallback)", env.nowIso, 2⟩ : Article) := by
    show keyGe _ _ = true
    simp [keyGe]
  show pySlice limit (List.insertionSort articleGe (fallback_scored env)) = _
  simp only [fallback_scored, List.insertionSort, List.orderedInsert]
  rw [if_pos hge23]
  simp only [List.orderedInsert]
  rw [if_pos hge12]

theorem claim5_witness :
    (1 : Int) ≤ 5 ∧
      collect_from_rss envAllFail (envAllFail.now - 48 * 3600) ⟨[], []⟩ = ⟨[], []⟩ ∧
      collect_from_web envAllFail ⟨[], []⟩ = ⟨[], []⟩ ∧
      envAllFail.md5hex (strTake "【最新】生成AIが変える私たちの未来" 30) ≠
        envAllFail.md5hex (strTake "AI技術の倫理的な課題と解決策" 30) ∧
      get_ai_news envAllFail 5 48 = pySlice 5 (fallback_scored envAllFail) :=
  ⟨by decide, by decide, by decide, by decide,
   claim5_amended envAllFail 5 48 (by decide) (by decide) (by decide) (by decide)
     (by decide) (by decide)⟩

/-- Environment whose strptime stub parses exactly one date string (to a
time far before the epoch cutoff used below) and fails on all others. -/
def env4 : Env :=
  { now := 0, nowIso := "2024-06-01T00:00:00",
    iso := fun d => toString d,
    strptime := fun s f =>
      if s = "2020-01-01 00:00:00" ∧ f = "%Y-%m-%d %H:%M:%S" then some (-100) else none,
    md5hex := fun s => s,
    feedparse := fun _ => .error "connection refused",
    fetchPage := fun _ => .error "connection refused" }

theorem claim4_witness :
    parse_date env4.strptime "2020-01-01 00:00:00" = some (-100) ∧
      (-100 : Int) < 0 ∧
      processEntry env4 0 ⟨"Google News - AI",
          "https://news.google.com/rss/search?q=AI+人工知能&hl=ja&gl=JP&ceid=JP:ja", none⟩
        ⟨[], []⟩ ⟨"古いニュース", "https://x.example/old", "", "2020-01-01 00:00:00"⟩ =
        ⟨[], []⟩ ∧
      parse_date env4.strptime "not a date" = none ∧
      (processEntry env4 0 ⟨"Google News - AI",
           "https://news.google.com/rss/search?q=AI+人工知能&hl=ja&gl=JP&ceid=JP:ja", none⟩
         ⟨[], []⟩ ⟨"日付不明のニュース", "https://x.example/undated", "", "not a date"⟩ =
         ⟨[], []⟩ ∨
       ∃ a : Article, a.published = env4.nowIso ∧
         processEntry env4 0 ⟨"Google News - AI",
             "https://news.google.com/rss/search?q=AI+人工知能&hl=ja&gl=JP&ceid=JP:ja", none⟩
           ⟨[], []⟩ ⟨"日付不明のニュース", "https://x.example/undated", "", "not a date"⟩ =
           ⟨([] : List Article) ++ [a], ([] : List String) ++ [a.url]⟩) :=
  ⟨by decide, by decide,
   (claim4_date_handling env4 0 ⟨"Google News - AI",
       "https://news.google.com/rss/search?q=AI+人工知能&hl=ja&gl=JP&ceid=JP:ja", none⟩
     ⟨[], []⟩ ⟨"古いニュース", "https://x.example/old", "", "2020-01-01 00:00:00"⟩).1
     (-100) (by decide) (by decide),
   by decide,
   (claim4_date_handling env4 0 ⟨"Google News - AI",
       "https://news.google.com/rss/search?q=AI+人工知能&hl=ja&gl=JP&ceid=JP:ja", none⟩
     ⟨[], []⟩ ⟨"日付不明のニュース", "https://x.example/undated", "", "not a date"⟩).2
     (by decide)⟩
